import Mathlib

/-!
# Verification of the smippo mirror engine against its specification

Shallow embedding of the smippo source (a JavaScript website copier) in Lean 4.

Modelling conventions:

* JavaScript strings are Lean `String`s; character-level operations go through
  `String.data : List Char` (JS strings are sequences of UTF-16 units; all inputs
  considered here lie in the BMP, where the two coincide).
* The WHATWG `URL` object produced by `new URL(s)` is modelled by the structure
  `URLRec` holding the parsed components (protocol, hostname, port, pathname,
  search parameters, hash).  Parsing itself — `new URL(...)` — is an external
  library call and is modelled as a function `String → Option URLRec` supplied
  as a parameter (`none` = the constructor throws); `href` re-serializes a record
  the way the `URL` class does.  The WHATWG parser already strips default ports,
  so a record obtained from parsing never carries `port = some 80` for `http:`;
  the code's own default-port branch is embedded verbatim nonetheless.
* Other external libraries (Node `path`, the `mime-types` database, `minimatch`)
  are likewise passed in as function parameters where the source calls them.
* The filesystem is a set of written paths; file contents are not inspected by
  any claim and are not modelled.
-/

namespace Smippo

/-- The parsed-URL object of the WHATWG `URL` class (`new URL(s)`), as used by
`src/utils/url.js`.  `scheme` is the JS `protocol` (includes the trailing `:`),
`hash` is the fragment without its leading `#` (empty = no fragment). -/
structure URLRec where
  scheme : String
  host : String
  port : Option Nat
  pathname : String
  query : List (String × String)
  hash : String
  deriving DecidableEq, Repr

/-- JS `s.endsWith(c)` for a single character `c`. -/
def endsWithChar (s : String) (c : Char) : Bool :=
  s.data.reverse.head? == some c

/-- JS `s.slice(0, -1)`: drop the last character. -/
def dropLastChar (s : String) : String :=
  ⟨s.data.dropLast⟩

/-- `src/utils/url.js` lines 12-14: strip a trailing slash from a non-root
pathname (`if (parsed.pathname !== '/' && parsed.pathname.endsWith('/'))
parsed.pathname = parsed.pathname.slice(0, -1)`). -/
def normalizePathname (p : String) : String :=
  if p != "/" && endsWithChar p '/' then dropLastChar p else p

/-- `src/utils/url.js` lines 16-19: clear the port when it is the scheme's
default (`http:`/80, `https:`/443). -/
def normalizePort (scheme : String) (port : Option Nat) : Option Nat :=
  if (scheme == "http:" && port == some 80) ||
     (scheme == "https:" && port == some 443) then none else port

/-- Lexicographic comparison of JS strings by code units (the order used when
`URLSearchParams.sort()` compares parameter names). -/
def codeUnitsLe : List Char → List Char → Bool
  | [], _ => true
  | _ :: _, [] => false
  | a :: as, b :: bs => if a < b then true else if b < a then false else codeUnitsLe as bs

theorem codeUnitsLe_total (x y : List Char) :
    codeUnitsLe x y = true ∨ codeUnitsLe y x = true := by
  induction x generalizing y with
  | nil => left; rfl
  | cons a as ih =>
    cases y with
    | nil => right; rfl
    | cons b bs =>
      rcases lt_trichotomy a b with h | h | h
      · left; simp [codeUnitsLe, h]
      · subst h
        rcases ih bs with h2 | h2
        · left; simp [codeUnitsLe, lt_irrefl, h2]
        · right; simp [codeUnitsLe, lt_irrefl, h2]
      · right; simp [codeUnitsLe, h]

theorem codeUnitsLe_trans {x y z : List Char} (h1 : codeUnitsLe x y = true)
    (h2 : codeUnitsLe y z = true) : codeUnitsLe x z = true := by
  induction x generalizing y z with
  | nil => rfl
  | cons a as ih =>
    cases y with
    | nil => simp [codeUnitsLe] at h1
    | cons b bs =>
      cases z with
      | nil => simp [codeUnitsLe] at h2
      | cons c cs =>
        rcases lt_trichotomy a b with hab | hab | hab
        · rcases lt_trichotomy b c with hbc | hbc | hbc
          · simp [codeUnitsLe, lt_trans hab hbc]
          · subst hbc; simp [codeUnitsLe, hab]
          · simp [codeUnitsLe, hbc, lt_asymm hbc] at h2
        · subst hab
          rcases lt_trichotomy a c with hbc | hbc | hbc
          · simp [codeUnitsLe, hbc]
          · subst hbc
            simp only [codeUnitsLe, lt_irrefl, if_neg (lt_irrefl a)] at h1 h2 ⊢
            exact ih h1 h2
          · simp [codeUnitsLe, hbc, lt_asymm hbc] at h2
        · simp [codeUnitsLe, hab, lt_asymm hab] at h1

theorem codeUnitsLe_antisymm {x y : List Char} (h1 : codeUnitsLe x y = true)
    (h2 : codeUnitsLe y x = true) : x = y := by
  induction x generalizing y with
  | nil => cases y with
    | nil => rfl
    | cons b bs => simp [codeUnitsLe] at h2
  | cons a as ih =>
    cases y with
    | nil => simp [codeUnitsLe] at h1
    | cons b bs =>
      rcases lt_trichotomy a b with hab | hab | hab
      · simp [codeUnitsLe, hab, lt_asymm hab] at h2
      · subst hab
        simp only [codeUnitsLe, lt_irrefl, if_neg (lt_irrefl a)] at h1 h2
        exact congrArg (a :: ·) (ih h1 h2)
      · simp [codeUnitsLe, hab, lt_asymm hab] at h1

/-- Comparison used by `URLSearchParams.sort()`: pairs are ordered by name only
(the sort is stable, so pairs with equal names keep their relative order). -/
def qle (p q : String × String) : Prop := codeUnitsLe p.1.data q.1.data = true

instance : DecidableRel qle := fun p q =>
  inferInstanceAs (Decidable (codeUnitsLe p.1.data q.1.data = true))

instance : IsTotal (String × String) qle :=
  ⟨fun p q => codeUnitsLe_total p.1.data q.1.data⟩

instance : IsTrans (String × String) qle :=
  ⟨fun _ _ _ h h2 => codeUnitsLe_trans h h2⟩

/-- `parsed.searchParams.sort()`: stable sort of the query pairs by name.
`List.insertionSort` is stable, matching the JS specification. -/
def sortQuery (q : List (String × String)) : List (String × String) :=
  q.insertionSort qle

/-- The component mutations performed by `normalizeUrl` in `src/utils/url.js`
(lines 10-21) on a successfully parsed URL: trailing-slash strip, default-port
strip, query sort.  The fragment is untouched. -/
def normalizeRec (u : URLRec) : URLRec :=
  { u with
    pathname := normalizePathname u.pathname
    port := normalizePort u.scheme u.port
    query := sortQuery u.query }

/-- Serialization of the query pairs, as `URL.search` does (without `?`). -/
def serializeQuery (q : List (String × String)) : String :=
  String.intercalate "&" (q.map fun p => p.1 ++ "=" ++ p.2)

/-- The WHATWG serialization of a parsed URL record, fragment excluded. -/
def hrefNoHash (u : URLRec) : String :=
  u.scheme ++ "//" ++ u.host ++
  (match u.port with | none => "" | some p => ":" ++ toString p) ++
  u.pathname ++
  (if u.query.isEmpty then "" else "?" ++ serializeQuery u.query)

/-- `parsed.href`: the WHATWG serialization of a parsed URL record. -/
def href (u : URLRec) : String :=
  hrefNoHash u ++ (if u.hash = "" then "" else "#" ++ u.hash)

/-- `normalizeUrl` of `src/utils/url.js` at the string level, parameterized by
the external URL parser: on parse success return the normalized `href`, on
parse failure (`catch`) return the input unchanged. -/
def normalizeUrlS (parse : String → Option URLRec) (url : String) : String :=
  match parse url with
  | some r => href (normalizeRec r)
  | none => url

/-- Does the string end in two consecutive slashes? -/
def endsWithTwoSlashes (s : String) : Bool :=
  match s.data.reverse with
  | '/' :: '/' :: _ => true
  | _ => false

theorem endsWithChar_eq_true {s : String} {c : Char} :
    endsWithChar s c = true ↔ s.data.reverse.head? = some c := by
  unfold endsWithChar
  exact beq_iff_eq

theorem normalizePathname_of_no_slash {s : String}
    (h : s.data.reverse.head? ≠ some '/') : normalizePathname s = s := by
  have hc : endsWithChar s '/' = false := by
    cases he : endsWithChar s '/'
    · rfl
    · exact absurd (endsWithChar_eq_true.mp he) h
  simp [normalizePathname, hc]

theorem normalizePathname_idem (s : String) (h : endsWithTwoSlashes s = false) :
    normalizePathname (normalizePathname s) = normalizePathname s := by
  cases hr : s.data.reverse with
  | nil =>
    have hid : normalizePathname s = s := normalizePathname_of_no_slash (by rw [hr]; simp)
    rw [hid]
    exact hid
  | cons c t =>
    by_cases hc : c = '/'
    · subst hc
      cases t with
      | nil =>
        have hs : s = "/" := by
          apply String.ext
          have := congrArg List.reverse hr
          rwa [List.reverse_reverse] at this
        rw [hs]
        rfl
      | cons c2 t2 =>
        have hc2 : c2 ≠ '/' := by
          intro heq
          subst heq
          have htwo : endsWithTwoSlashes s = true := by
            unfold endsWithTwoSlashes
            rw [hr]
            rfl
          rw [htwo] at h
          exact absurd h (by decide)
        have hdata : s.data = (c2 :: t2).reverse ++ ['/'] := by
          have := congrArg List.reverse hr
          rwa [List.reverse_reverse, List.reverse_cons] at this
        have hne : s ≠ "/" := by
          intro heq
          rw [heq] at hdata
          have : (['/'] : List Char).length = ((c2 :: t2).reverse ++ ['/']).length :=
            congrArg List.length hdata
          simp at this
        have hbne : (s != "/") = true := bne_iff_ne.mpr hne
        have hend : endsWithChar s '/' = true := by
          rw [endsWithChar_eq_true, hr]
          simp
        have hstep : normalizePathname s = ⟨(c2 :: t2).reverse⟩ := by
          rw [normalizePathname, if_pos (by rw [hbne, hend]; rfl)]
          unfold dropLastChar
          rw [hdata, List.dropLast_concat]
        rw [hstep]
        rw [normalizePathname_of_no_slash (s := ⟨(c2 :: t2).reverse⟩)
          (by simpa using hc2)]
    · have hid : normalizePathname s = s :=
        normalizePathname_of_no_slash (by rw [hr]; simp [hc])
      rw [hid]
      exact hid

theorem normalizePort_idem (scheme : String) (port : Option Nat) :
    normalizePort scheme (normalizePort scheme port) = normalizePort scheme port := by
  unfold normalizePort
  by_cases h : ((scheme == "http:" && port == some 80) ||
      (scheme == "https:" && port == some 443)) = true
  · simp [h]
  · simp [h]

theorem sortQuery_idem (q : List (String × String)) :
    sortQuery (sortQuery q) = sortQuery q :=
  List.Sorted.insertionSort_eq (List.sorted_insertionSort qle q)

/-- Stable sorts of permuted pair lists agree when no key is duplicated. -/
theorem sortQuery_perm_of_nodup_keys {q1 q2 : List (String × String)}
    (hp : q1.Perm q2) (hn : (q1.map Prod.fst).Nodup) : sortQuery q1 = sortQuery q2 := by
  have hs1 : List.Sorted qle (sortQuery q1) := List.sorted_insertionSort qle q1
  have hs2 : List.Sorted qle (sortQuery q2) := List.sorted_insertionSort qle q2
  have hp1 : (sortQuery q1).Perm q1 := List.perm_insertionSort qle q1
  have hp2 : (sortQuery q2).Perm q2 := List.perm_insertionSort qle q2
  have hperm : (sortQuery q1).Perm (sortQuery q2) :=
    (hp1.trans hp).trans hp2.symm
  have hn1 : ((sortQuery q1).map Prod.fst).Nodup :=
    ((hp1.map Prod.fst).nodup_iff).mpr hn
  have hn2 : ((sortQuery q2).map Prod.fst).Nodup :=
    (((hp2.map Prod.fst).trans (hp.map Prod.fst).symm).nodup_iff).mpr hn
  have hpw1 : (sortQuery q1).Pairwise (fun p q => qle p q ∧ p.1 ≠ q.1) :=
    hs1.and (List.pairwise_map.mp hn1)
  have hpw2 : (sortQuery q2).Pairwise (fun p q => qle p q ∧ p.1 ≠ q.1) :=
    hs2.and (List.pairwise_map.mp hn2)
  haveI : IsAntisymm (String × String) (fun p q => qle p q ∧ p.1 ≠ q.1) :=
    ⟨fun a b h1 h2 =>
      absurd (String.ext (codeUnitsLe_antisymm h1.1 h2.1)) h1.2⟩
  exact List.eq_of_perm_of_sorted hperm hpw1 hpw2

/-- C6, counterexample: `normalizeUrl` is *not* idempotent on a URL whose path
ends in two slashes.  `https://example.com/a//` normalizes to
`https://example.com/a/` (one slash stripped), and normalizing again yields
`https://example.com/a`, contradicting the claim that a second application of
the canonicalizer changes nothing, "including for paths that end in repeated
slashes". -/
theorem normalizeUrl_not_idempotent_on_double_slash :
    normalizeRec (normalizeRec ⟨"https:", "example.com", none, "/a//", [], ""⟩) ≠
      normalizeRec ⟨"https:", "example.com", none, "/a//", [], ""⟩ ∧
    href (normalizeRec (normalizeRec ⟨"https:", "example.com", none, "/a//", [], ""⟩)) ≠
      href (normalizeRec ⟨"https:", "example.com", none, "/a//", [], ""⟩) := by
  decide

/-- C6 (amended): for every well-formed URL whose path does not end in two
consecutive slashes, `normalize(normalize(u)) = normalize(u)`: the
trailing-slash strip, the default-port strip and the stable query sort are all
individually idempotent in that case. -/
theorem normalizeUrl_idempotent (u : URLRec)
    (h : endsWithTwoSlashes u.pathname = false) :
    normalizeRec (normalizeRec u) = normalizeRec u := by
  unfold normalizeRec
  simp [normalizePathname_idem u.pathname h, normalizePort_idem, sortQuery_idem]

/-- Witness for C6 at the concrete URL `https://example.com/a/`. -/
theorem normalizeUrl_idempotent_witness :
    endsWithTwoSlashes ("/a/" : String) = false ∧
    normalizeRec (normalizeRec ⟨"https:", "example.com", none, "/a/", [], ""⟩) =
      normalizeRec ⟨"https:", "example.com", none, "/a/", [], ""⟩ :=
  ⟨by decide, normalizeUrl_idempotent ⟨"https:", "example.com", none, "/a/", [], ""⟩ (by decide)⟩

/-- C5, counterexample: two URLs that differ only in the order of their query
parameters need *not* normalize equal when a parameter name is duplicated:
`URLSearchParams.sort()` is stable and sorts by name only, so
`?a=2&a=1` and `?a=1&a=2` keep their original relative order and serialize
differently. -/
theorem normalizeUrl_query_order_counterexample :
    ([(("a" : String), ("2" : String)), ("a", "1")]).Perm [("a", "1"), ("a", "2")] ∧
    href (normalizeRec ⟨"https:", "example.com", none, "/p", [("a", "2"), ("a", "1")], ""⟩) ≠
      href (normalizeRec ⟨"https:", "example.com", none, "/p", [("a", "1"), ("a", "2")], ""⟩) :=
  ⟨List.Perm.swap _ _ _, by decide⟩

/-- C5 (amended): `normalizeUrl` returns equal strings for two well-formed
absolute URLs that differ only by (a) the presence of the scheme's default port
(80 for `http`, 443 for `https`), (b) the order of query parameters *provided
no parameter name occurs twice* (the sort is stable, so permuted duplicates may
stay distinct), or (c) a trailing slash on a non-root path. -/
theorem normalizeUrl_canonical_equalities :
    (∀ u : URLRec,
      (u.scheme = "http:" ∧ u.port = some 80) ∨
        (u.scheme = "https:" ∧ u.port = some 443) →
      href (normalizeRec u) = href (normalizeRec { u with port := none })) ∧
    (∀ u v : URLRec, v.scheme = u.scheme → v.host = u.host → v.port = u.port →
      v.pathname = u.pathname → v.hash = u.hash → u.query.Perm v.query →
      (u.query.map Prod.fst).Nodup →
      href (normalizeRec u) = href (normalizeRec v)) ∧
    (∀ u : URLRec, u.pathname ≠ "" → u.pathname.data.getLast? ≠ some '/' →
      href (normalizeRec { u with pathname := u.pathname ++ "/" }) =
        href (normalizeRec u)) := by
  refine ⟨fun u h => ?_, fun u v h1 h2 h3 h4 h5 hp hn => ?_, fun u hne hsl => ?_⟩
  · rcases h with ⟨h1, h2⟩ | ⟨h1, h2⟩ <;> simp [normalizeRec, normalizePort, h1, h2]
  · obtain ⟨s1, ho1, p1, pa1, q1, ha1⟩ := u
    obtain ⟨s2, ho2, p2, pa2, q2, ha2⟩ := v
    dsimp at h1 h2 h3 h4 h5 hp hn
    subst h1 h2 h3 h4 h5
    have hq := sortQuery_perm_of_nodup_keys hp hn
    simp [normalizeRec, hq]
  · have hpath : normalizePathname (u.pathname ++ "/") = u.pathname := by
      have hend : endsWithChar (u.pathname ++ "/") '/' = true := by
        rw [endsWithChar_eq_true, String.data_append]
        simp
      have hnr : (u.pathname ++ "/") ≠ "/" := by
        intro heq
        have hd := congrArg String.data heq
        rw [String.data_append] at hd
        have hdat : u.pathname.data = [] := by
          rcases hx : u.pathname.data with _ | ⟨c, cs⟩
          · rfl
          · rw [hx] at hd
            simpa using congrArg List.length hd
        exact hne (String.ext hdat)
      rw [normalizePathname, if_pos (by rw [bne_iff_ne.mpr hnr, hend]; rfl)]
      apply String.ext
      show ((u.pathname ++ "/").data).dropLast = u.pathname.data
      rw [String.data_append]
      exact List.dropLast_concat ..
    have hpath2 : normalizePathname u.pathname = u.pathname :=
      normalizePathname_of_no_slash (by rw [List.head?_reverse]; exact hsl)
    simp [normalizeRec, hpath, hpath2]

/-- Witness for the three equalities of C5 at concrete URLs:
`http://example.com:80/x` against `http://example.com/x`, permuted distinct
query names `?b=2&a=1` against `?a=1&b=2`, and `https://example.com/docs/`
against `https://example.com/docs`. -/
theorem normalizeUrl_canonical_equalities_witness :
    href (normalizeRec ⟨"http:", "example.com", some 80, "/x", [], ""⟩) =
      href (normalizeRec ⟨"http:", "example.com", none, "/x", [], ""⟩) ∧
    href (normalizeRec ⟨"https:", "example.com", none, "/p", [("b", "2"), ("a", "1")], ""⟩) =
      href (normalizeRec ⟨"https:", "example.com", none, "/p", [("a", "1"), ("b", "2")], ""⟩) ∧
    href (normalizeRec ⟨"https:", "example.com", none, "/docs" ++ "/", [], ""⟩) =
      href (normalizeRec ⟨"https:", "example.com", none, "/docs", [], ""⟩) :=
  ⟨normalizeUrl_canonical_equalities.1 _ (Or.inl ⟨rfl, rfl⟩),
   normalizeUrl_canonical_equalities.2.1 _ _ rfl rfl rfl rfl rfl
     (by decide) (by decide),
   normalizeUrl_canonical_equalities.2.2 ⟨"https:", "example.com", none, "/docs", [], ""⟩
     (by decide) (by decide)⟩

/-! ## String helpers mirroring the JS string methods used by the source -/

/-- JS `s.startsWith(pat)`. -/
def startsWithStr (s pat : String) : Bool := pat.data.isPrefixOf s.data

/-- JS `s.endsWith(pat)`. -/
def endsWithStr (s pat : String) : Bool := pat.data.isSuffixOf s.data

/-- JS `s.toLowerCase()` (ASCII, which is all the source compares). -/
def toLowerStr (s : String) : String := ⟨s.data.map Char.toLower⟩

/-- JS `s.trim()`. -/
def trimStr (s : String) : String :=
  ⟨((s.data.dropWhile (·.isWhitespace)).reverse.dropWhile (·.isWhitespace)).reverse⟩

/-- JS `s.split(c)[0]`: everything before the first occurrence of `c`. -/
def takeUntilChar (s : String) (c : Char) : String :=
  ⟨s.data.takeWhile (· ≠ c)⟩

/-- JS `s.includes(c)` for a single character. -/
def containsChar (s : String) (c : Char) : Bool := s.data.contains c

/-- JS `s.slice(0, -n)` for `n > 0`: drop the last `n` characters. -/
def sliceDropRight (s : String) (n : Nat) : String :=
  ⟨s.data.take (s.data.length - n)⟩

/-! ## `urlToPath` and path utilities -/

/-- One step of `simpleHash` (`src/utils/url.js` lines 220-228): JS 32-bit
signed-integer wraparound applied to `((hash << 5) - hash) + charCode`. -/
def toInt32 (x : Int) : Int := ((x + 2 ^ 31) % 2 ^ 32) - 2 ^ 31

/-- `simpleHash` of `src/utils/url.js`: fold the 31x+c rolling hash over the
code units, coercing to int32 at each step (`hash = hash & hash`), then
`Math.abs(hash).toString(16).slice(0, 8)`. -/
def simpleHash (s : String) : String :=
  let h := s.data.foldl (fun h c => toInt32 (toInt32 (h * 32) - h + c.toNat)) 0
  ⟨(Nat.toDigits 16 h.natAbs).take 8⟩

/-- The test `/\.[a-z0-9]+$/i.test(pathname)` of `urlToPath`: does the path end
in a dot followed by one or more ASCII letters/digits? -/
def hasExtensionB (p : String) : Bool :=
  let r := p.data.reverse
  let t := r.takeWhile fun c => c.isAlpha || c.isDigit
  !t.isEmpty && ((r.drop t.length).head? == some '.')

/-- `pathname.match(/\.[^.]+$/)?.[0] || ''`: the final `.ext` suffix (dot plus
one or more non-dot characters), or the empty string. -/
def lastExtSuffix (p : String) : String :=
  let r := p.data.reverse
  let t := r.takeWhile fun c => c ≠ '.'
  if !t.isEmpty && ((r.drop t.length).head? == some '.') then ⟨'.' :: t.reverse⟩ else ""

/-- The `'flat'` layout branch of `urlToPath`: replace every `/` with `-`,
then drop a single leading `-`. -/
def flattenPath (p : String) : String :=
  match p.data.map (fun c => if c = '/' then '-' else c) with
  | '-' :: rest => ⟨rest⟩
  | l => ⟨l⟩

/-- `hostname.replace(...)`: drop a leading `www.` from the host. -/
def stripWww (h : String) : String :=
  if startsWithStr h "www." then ⟨h.data.drop 4⟩ else h

/-- `urlToPath(url, structure)` of `src/utils/url.js` lines 167-215.  The
first argument is the result of `new URL(url)` (`none` = the constructor threw,
landing in the `catch` that returns `'unknown/index.html'`). -/
def urlToPath (parsed : Option URLRec) (structureOpt : String) : String :=
  match parsed with
  | none => "unknown/index.html"
  | some parsed =>
    let pathname := parsed.pathname
    let pathname := if pathname == "/" || pathname == "" then "/index.html" else pathname
    let pathname := if endsWithChar pathname '/' then pathname ++ "index.html" else pathname
    let pathname := if hasExtensionB pathname then pathname else pathname ++ ".html"
    let pathname :=
      if parsed.query.isEmpty then pathname
      else
        let hash := simpleHash ("?" ++ serializeQuery parsed.query)
        let ext := lastExtSuffix pathname
        let base := if ext == "" then pathname else sliceDropRight pathname ext.data.length
        base ++ "-" ++ hash ++ ext
    if structureOpt == "flat" then flattenPath pathname
    else if structureOpt == "domain" then parsed.host ++ pathname
    else stripWww parsed.host ++ pathname

/-- `sanitizePath` of `src/utils/path.js`: replace `<>:"|?*` with `_`. -/
def sanitizeChar (c : Char) : Char :=
  if c = '<' || c = '>' || c = ':' || c = '"' || c = '|' || c = '?' || c = '*' then '_' else c

/-- `.replace(/\.\./g, '_')`: every non-overlapping `..` becomes one `_`. -/
def replaceDotDot : List Char → List Char
  | '.' :: '.' :: rest => '_' :: replaceDotDot rest
  | c :: rest => c :: replaceDotDot rest
  | [] => []

/-- `.replace(/\/+/g, '/')`: collapse each run of slashes to a single slash. -/
def collapseSlashes (l : List Char) : List Char :=
  l.foldr (fun c acc => if c == '/' && acc.head? == some '/' then acc else c :: acc) []

/-- `sanitizePath` of `src/utils/path.js` lines 38-44: invalid characters to
`_`, `..` to `_`, collapse slash runs, truncate to 200 characters. -/
def sanitizePath (s : String) : String :=
  ⟨(collapseSlashes (replaceDotDot (s.data.map sanitizeChar))).take 200⟩

/-- `joinPath` of `src/utils/path.js`, as applied to an output directory and a
sanitized relative path (no `.`/`..` segments, no trailing slash on the left):
Node's `path.join` then reduces to concatenation with a separator. -/
def joinPath (a b : String) : String := a ++ "/" ++ b

/-- Node's `path.extname`: the `.ext` suffix of the last path segment, empty
for dotfiles and extensionless names. -/
def extname (p : String) : String :=
  let rev := p.data.reverse.takeWhile fun c => c ≠ '/'
  let t := rev.takeWhile fun c => c ≠ '.'
  match rev.drop t.length with
  | ['.'] => ""
  | '.' :: _ :: _ => ⟨'.' :: t.reverse⟩
  | _ => ""

/-- `isLikelyPage` of `src/utils/url.js` lines 233-250: the asset-extension
table; a URL is a page unless its (lowercased) pathname ends in one of these.
Parse failure (`catch`) classifies as page. -/
def assetExtensions : List String :=
  [".css", ".js", ".json", ".xml",
   ".png", ".jpg", ".jpeg", ".gif", ".webp", ".svg", ".ico", ".bmp",
   ".woff", ".woff2", ".ttf", ".eot", ".otf",
   ".mp3", ".mp4", ".webm", ".ogg", ".wav",
   ".pdf", ".zip", ".tar", ".gz",
   ".map"]

/-- `isLikelyPage(url)` with the URL parser passed in. -/
def isLikelyPage (parse : String → Option URLRec) (url : String) : Bool :=
  match parse url with
  | none => true
  | some parsed =>
    !assetExtensions.any fun ext => endsWithStr (toLowerStr parsed.pathname) ext

/-- C9: for every input string that fails to parse as an absolute URL
(`new URL(url)` throws, so `urlToPath`'s `catch` is taken), `urlToPath`
returns the fixed string `'unknown/index.html'` regardless of the layout
argument — the `catch` sits outside the layout `switch`. -/
theorem urlToPath_parse_failure (layout : String) :
    urlToPath none layout = "unknown/index.html" := rfl

/-! ## Scope oracle (`src/utils/url.js`) and Filter (`src/filter.js`) -/

/-- JS `s.split(c)` for a single-character separator. -/
def splitOnCharAux (c : Char) : List Char → List Char → List String
  | [], acc => [⟨acc.reverse⟩]
  | d :: rest, acc =>
    if d = c then ⟨acc.reverse⟩ :: splitOnCharAux c rest []
    else splitOnCharAux c rest (d :: acc)

/-- JS `s.split(c)`. -/
def splitOnChar (s : String) (c : Char) : List String :=
  splitOnCharAux c s.data []

/-- `getRootDomain` of `src/utils/url.js` lines 121-132: last two labels of the
host, or last three when the last two form one of the four special TLDs. -/
def getRootDomain (hostname : String) : String :=
  let parts := splitOnChar hostname '.'
  let specialTlds := ["co.uk", "com.au", "co.nz", "org.uk"]
  let lastTwo := String.intercalate "." (parts.drop (parts.length - 2))
  if specialTlds.contains lastTwo then
    String.intercalate "." (parts.drop (parts.length - 3))
  else lastTwo

/-- `getTld`: the last label of the host. -/
def getTld (hostname : String) : String :=
  (splitOnChar hostname '.').getLastD ""

/-- JS `URL.origin` for http(s) URLs: scheme, host and explicit port. -/
def origin (u : URLRec) : String :=
  u.scheme ++ "//" ++ u.host ++
  (match u.port with | none => "" | some p => ":" ++ toString p)

/-- `isSameOrigin` (parse both, compare origins; parse failure → false). -/
def isSameOrigin (parse : String → Option URLRec) (url1 url2 : String) : Bool :=
  match parse url1, parse url2 with
  | some p1, some p2 => origin p1 == origin p2
  | _, _ => false

/-- `isSameDomain` (compare registrable domains). -/
def isSameDomain (parse : String → Option URLRec) (url1 url2 : String) : Bool :=
  match parse url1, parse url2 with
  | some p1, some p2 => getRootDomain p1.host == getRootDomain p2.host
  | _, _ => false

/-- `isSameTld` (compare last labels). -/
def isSameTld (parse : String → Option URLRec) (url1 url2 : String) : Bool :=
  match parse url1, parse url2 with
  | some p1, some p2 => getTld p1.host == getTld p2.host
  | _, _ => false

/-- `baseParsed.pathname.replace(...)` in `isInDirectory`: replace the final
`/segment` with `/`, i.e. keep everything up to and including the last slash
(no match → unchanged). -/
def dirOfPathname (p : String) : String :=
  if containsChar p '/' then ⟨(p.data.reverse.dropWhile fun c => c ≠ '/').reverse⟩
  else p

/-- `isInDirectory` of `src/utils/url.js` lines 101-116. -/
def isInDirectory (parse : String → Option URLRec) (url baseUrl : String) : Bool :=
  match parse url, parse baseUrl with
  | some parsed, some baseParsed =>
    if origin parsed != origin baseParsed then false
    else
      let basePath := if endsWithChar baseParsed.pathname '/' then baseParsed.pathname
        else dirOfPathname baseParsed.pathname
      startsWithStr parsed.pathname basePath
  | _, _ => false

/-- `isInScope` of `src/utils/url.js` lines 145-162. -/
def isInScope (parse : String → Option URLRec) (url baseUrl scope : String)
    (stayInDir : Bool) : Bool :=
  if stayInDir && !isInDirectory parse url baseUrl then false
  else if scope == "subdomain" then isSameOrigin parse url baseUrl
  else if scope == "domain" then isSameDomain parse url baseUrl
  else if scope == "tld" then isSameTld parse url baseUrl
  else if scope == "all" then true
  else isSameDomain parse url baseUrl

/-- The configuration captured by the `Filter` constructor (`src/filter.js`
lines 8-19), with the defaults already applied. -/
structure FilterCfg where
  baseUrl : String
  scope : String
  stayInDir : Bool
  externalAssets : Bool
  includePats : List String
  excludePats : List String
  mimeInclude : List String
  mimeExclude : List String
  maxSize : Option Nat
  minSize : Option Nat

/-- `toGlobPattern`: a pattern without `*` becomes a prefix pattern `pat*`. -/
def toGlobPattern (pattern : String) : String :=
  if containsChar pattern '*' then pattern else pattern ++ "*"

/-- `matchesPattern`, with the external `minimatch` (nocase) matcher `mm`
passed in: `mm url glob` models `minimatch(url, glob, {nocase: true})`. -/
def matchesPattern (mm : String → String → Bool) (url : String)
    (patterns : List String) : Bool :=
  patterns.any fun pattern => mm url (toGlobPattern pattern)

/-- `matchesMime`: `image/*`-style patterns match by prefix (dropping the `*`),
others exactly; patterns lowercased. -/
def matchesMime (mimeType : String) (patterns : List String) : Bool :=
  patterns.any fun pattern =>
    let pattern := toLowerStr pattern
    if endsWithStr pattern "/*" then startsWithStr mimeType (sliceDropRight pattern 1)
    else mimeType == pattern

/-- `Filter.shouldFollow` (`src/filter.js` lines 24-45). -/
def shouldFollow (mm : String → String → Bool) (parse : String → Option URLRec)
    (f : FilterCfg) (url : String) : Bool :=
  if !isInScope parse url f.baseUrl f.scope f.stayInDir then false
  else if f.excludePats.length > 0 && matchesPattern mm url f.excludePats then false
  else if f.includePats.length > 0 && !matchesPattern mm url f.includePats then false
  else true

/-- `Filter.shouldDownloadAsset` (`src/filter.js` lines 50-62). -/
def shouldDownloadAsset (mm : String → String → Bool) (parse : String → Option URLRec)
    (f : FilterCfg) (url : String) : Bool :=
  if f.externalAssets then
    if f.excludePats.length > 0 && matchesPattern mm url f.excludePats then false
    else true
  else shouldFollow mm parse f url

/-- `Filter.shouldSaveByMime` (`src/filter.js` lines 67-87): empty content type
passes; otherwise the primary part (before `;`, trimmed, lowercased) is tested
against the exclude then include pattern lists. -/
def shouldSaveByMime (f : FilterCfg) (contentType : String) : Bool :=
  if contentType == "" then true
  else
    let mimeType := toLowerStr (trimStr (takeUntilChar contentType ';'))
    if f.mimeExclude.length > 0 && matchesMime mimeType f.mimeExclude then false
    else if f.mimeInclude.length > 0 && !matchesMime mimeType f.mimeInclude then false
    else true

/-- `Filter.shouldSaveBySize` (`src/filter.js` lines 92-100): reject when a
configured bound is strictly exceeded. -/
def shouldSaveBySize (f : FilterCfg) (size : Nat) : Bool :=
  if (match f.maxSize with | some m => decide (size > m) | none => false) then false
  else if (match f.minSize with | some n => decide (size < n) | none => false) then false
  else true

/-- `Filter.shouldSave` (`src/filter.js` lines 105-110). -/
def shouldSave (mm : String → String → Bool) (parse : String → Option URLRec)
    (f : FilterCfg) (url contentType : String) (size : Nat) : Bool :=
  if !shouldDownloadAsset mm parse f url then false
  else if !shouldSaveByMime f contentType then false
  else if !shouldSaveBySize f size then false
  else true

/-- The specification's size test: `size` lies in the inclusive interval
`[minSize, maxSize]` (an absent bound is unbounded). -/
def sizeWithinBounds (f : FilterCfg) (size : Nat) : Bool :=
  (match f.minSize with | some n => decide (n ≤ size) | none => true) &&
  (match f.maxSize with | some m => decide (size ≤ m) | none => true)

theorem shouldSaveBySize_eq_sizeWithinBounds (f : FilterCfg) (size : Nat) :
    shouldSaveBySize f size = sizeWithinBounds f size := by
  unfold shouldSaveBySize sizeWithinBounds
  rcases f.maxSize with _ | m <;> rcases f.minSize with _ | n
  · rfl
  · by_cases h2 : size < n
    · simp [h2, Nat.not_le.mpr h2]
    · simp [h2, Nat.not_lt.mp h2]
  · by_cases h1 : size > m
    · simp [h1, Nat.not_le.mpr h1]
    · simp [h1, Nat.not_lt.mp h1]
  · by_cases h1 : size > m
    · simp [h1, Nat.not_le.mpr h1]
    · by_cases h2 : size < n
      · simp [h1, h2, Nat.not_le.mpr h2]
      · simp [h1, h2, Nat.not_lt.mp h1, Nat.not_lt.mp h2]

/-- C7: `shouldSave(url, mime, size)` is true exactly when
`shouldDownloadAsset(url)` is true, the mime primary part passes the
mimeInclude/mimeExclude patterns, and the size lies within the *inclusive*
bounds `[minSize, maxSize]`; an empty mime string always passes the mime test.
Stated for every minimatch matcher `mm` and URL parser `parse`. -/
theorem shouldSave_characterization :
    (∀ (mm : String → String → Bool) (parse : String → Option URLRec)
        (f : FilterCfg) (url contentType : String) (size : Nat),
      shouldSave mm parse f url contentType size =
        (shouldDownloadAsset mm parse f url && shouldSaveByMime f contentType &&
          sizeWithinBounds f size)) ∧
    (∀ f : FilterCfg, shouldSaveByMime f "" = true) := by
  refine ⟨fun mm parse f url contentType size => ?_, fun f => rfl⟩
  rw [← shouldSaveBySize_eq_sizeWithinBounds]
  cases hA : shouldDownloadAsset mm parse f url <;>
    cases hB : shouldSaveByMime f contentType <;>
      cases hC : shouldSaveBySize f size <;>
        simp [shouldSave, hA, hB, hC]

/-! ## Link rewriter (`src/link-rewriter.js`) and link extraction -/

/-- `resolveUrl` of `src/utils/url.js` lines 51-57: `new URL(relative, base).href`
with the two-argument URL constructor passed in as `lib` (`none` = it throws,
landing in the `catch` that returns `relative` unchanged). -/
def resolveUrl (lib : String → String → Option String) (relative base : String) : String :=
  match lib relative base with
  | some h => h
  | none => relative

/-- `shouldSkipUrl` of `src/link-rewriter.js` lines 301-317: empty values and
the skip prefixes `javascript: mailto: tel: data: # blob: about:` (tested on
the trimmed, lowercased value). -/
def shouldSkipUrl (url : String) : Bool :=
  if url == "" then true
  else
    ["javascript:", "mailto:", "tel:", "data:", "#", "blob:", "about:"].any
      fun p => startsWithStr (toLowerStr (trimStr url)) p

/-- `getRelativePath` of `src/utils/path.js` lines 20-33, with Node's
`path.dirname` and `path.relative` passed in: backslashes become slashes and a
`./` prefix is added when the result starts with neither `.` nor `/`. -/
def getRelativePath (dirnameF : String → String) (relativeF : String → String → String)
    (f t : String) : String :=
  let fromDir := dirnameF f
  let rel := relativeF fromDir t
  let rel : String := ⟨rel.data.map fun c => if c = '\\' then '/' else c⟩
  if !startsWithStr rel "." && !startsWithStr rel "/" then "./" ++ rel else rel

/-- JS `s.replace(...)` with a `/$`-anchored slash: drop one trailing slash. -/
def stripOneTrailingSlash (s : String) : String :=
  if endsWithChar s '/' then dropLastChar s else s

/-- The `getLocalPath` helper inside `rewriteLinks`
(`src/link-rewriter.js` lines 39-75): resolve the attribute URL against the
page URL, then try the URL map for the absolute URL, the URL without a
trailing slash, the URL with `index.html` appended (when it ends in `/`), and
the URL without its query string; the first hit is turned into a relative path
from the page's directory. -/
def getLocalPath (lib : String → String → Option String) (dirnameF : String → String)
    (relativeF : String → String → String) (urlMap : List (String × String))
    (pagePath pageUrl url : String) : Option String :=
  if url == "" then none
  else
    let absoluteUrl := resolveUrl lib url pageUrl
    match urlMap.lookup absoluteUrl with
    | some targetPath => some (getRelativePath dirnameF relativeF pagePath targetPath)
    | none =>
      let normalizedUrl := stripOneTrailingSlash absoluteUrl
      match urlMap.lookup normalizedUrl with
      | some targetPath => some (getRelativePath dirnameF relativeF pagePath targetPath)
      | none =>
        match (if endsWithChar absoluteUrl '/' then
            urlMap.lookup (absoluteUrl ++ "index.html") else none) with
        | some targetPath => some (getRelativePath dirnameF relativeF pagePath targetPath)
        | none =>
          let urlWithoutQuery := takeUntilChar absoluteUrl '?'
          match (if urlWithoutQuery != absoluteUrl then
              urlMap.lookup urlWithoutQuery else none) with
          | some targetPath => some (getRelativePath dirnameF relativeF pagePath targetPath)
          | none => none

/-- The per-attribute rewrite of `rewriteLinks`: skip-prefixed values are left
alone, otherwise the attribute is set to `getLocalPath`'s result when that is
non-null and left unchanged when it is null. -/
def rewriteAttrValue (lib : String → String → Option String) (dirnameF : String → String)
    (relativeF : String → String → String) (urlMap : List (String × String))
    (pagePath pageUrl attrVal : String) : String :=
  if shouldSkipUrl attrVal then attrVal
  else
    match getLocalPath lib dirnameF relativeF urlMap pagePath pageUrl attrVal with
    | some localPath => localPath
    | none => attrVal

/-- The lookup sequence as the specification words it: `abs`, `abs` without a
trailing `/`, `abs + "index.html"` when `abs` ends with `/`, then `abs`
without its query string; the first hit wins. -/
def specLookup (urlMap : List (String × String)) (abs : String) : Option String :=
  match urlMap.lookup abs with
  | some t => some t
  | none =>
    match urlMap.lookup (stripOneTrailingSlash abs) with
    | some t => some t
    | none =>
      match (if endsWithChar abs '/' then urlMap.lookup (abs ++ "index.html") else none) with
      | some t => some t
      | none => urlMap.lookup (takeUntilChar abs '?')

/-- C3: for every rewritable (non-skip-prefixed) attribute URL `u`, the
rewriter resolves `abs = resolve(u, pageUrl)` and consults the URL map in
exactly the specified order, rewriting to the relative path of the first hit
and leaving the attribute untouched when all four lookups miss.  Stated for
every URL-resolution library, Node path library, URL map and page. -/
theorem rewriteLinks_lookup_order (lib : String → String → Option String)
    (dirnameF : String → String) (relativeF : String → String → String)
    (urlMap : List (String × String)) (pagePath pageUrl u : String)
    (h : shouldSkipUrl u = false) :
    rewriteAttrValue lib dirnameF relativeF urlMap pagePath pageUrl u =
      (match specLookup urlMap (resolveUrl lib u pageUrl) with
       | some targetPath => getRelativePath dirnameF relativeF pagePath targetPath
       | none => u) := by
  have hne : (u == "") = false := by
    cases hu : u == ""
    · rfl
    · rw [shouldSkipUrl, if_pos hu] at h
      exact absurd h (by decide)
  unfold rewriteAttrValue getLocalPath specLookup
  rw [if_neg (by rw [h]; exact Bool.false_ne_true)]
  rw [if_neg (by rw [hne]; exact Bool.false_ne_true)]
  cases h1 : List.lookup (resolveUrl lib u pageUrl) urlMap with
  | some t => simp [h1]
  | none =>
    simp only [h1]
    cases h2 : List.lookup (stripOneTrailingSlash (resolveUrl lib u pageUrl)) urlMap with
    | some t => simp [h2]
    | none =>
      simp only [h2]
      cases h3 : (if endsWithChar (resolveUrl lib u pageUrl) '/' = true then
          List.lookup (resolveUrl lib u pageUrl ++ "index.html") urlMap else none) with
      | some t => simp [h3]
      | none =>
        simp only [h3]
        by_cases h4 : (takeUntilChar (resolveUrl lib u pageUrl) '?' !=
            resolveUrl lib u pageUrl) = true
        · simp only [h4, if_true]
          cases h5 : List.lookup (takeUntilChar (resolveUrl lib u pageUrl) '?') urlMap <;>
            simp [h5]
        · have h4f : (takeUntilChar (resolveUrl lib u pageUrl) '?' !=
              resolveUrl lib u pageUrl) = false := by
            cases hb : (takeUntilChar (resolveUrl lib u pageUrl) '?' !=
                resolveUrl lib u pageUrl)
            · rfl
            · exact absurd hb h4
          have heq : takeUntilChar (resolveUrl lib u pageUrl) '?' =
              resolveUrl lib u pageUrl := by
            by_contra hcon
            rw [bne_iff_ne.mpr hcon] at h4f
            exact absurd h4f (by decide)
          simp [h4f, heq, h1]

/-- Witness for C3: a concrete map hit on the first lookup. -/
theorem rewriteLinks_lookup_order_witness :
    shouldSkipUrl "https://e/a.css" = false ∧
    rewriteAttrValue (fun u _ => some u) (fun _ => "e") (fun _ t => t)
        [("https://e/a.css", "e/a.css")] "e/index.html" "https://e/page"
        "https://e/a.css" =
      (match specLookup [("https://e/a.css", "e/a.css")]
          (resolveUrl (fun u _ => some u) "https://e/a.css" "https://e/page") with
       | some targetPath => getRelativePath (fun _ => "e") (fun _ t => t) "e/index.html" targetPath
       | none => "https://e/a.css") :=
  ⟨by decide,
   rewriteLinks_lookup_order (fun u _ => some u) (fun _ => "e") (fun _ t => t)
     [("https://e/a.css", "e/a.css")] "e/index.html" "https://e/page"
     "https://e/a.css" (by decide)⟩

/-- `resolveAndClean` of `src/link-extractor.js` lines 184-202: trim, reject
the special prefixes, resolve against the base, then strip the fragment with
`resolved.split('#')[0]`. -/
def resolveAndClean (lib : String → String → Option String) (url baseUrl : String) :
    Option String :=
  if url == "" then none
  else if startsWithStr (trimStr url) "javascript:" then none
  else if startsWithStr (trimStr url) "mailto:" then none
  else if startsWithStr (trimStr url) "tel:" then none
  else if startsWithStr (trimStr url) "data:" then none
  else if startsWithStr (trimStr url) "#" then none
  else some (takeUntilChar (resolveUrl lib (trimStr url) baseUrl) '#')

theorem contains_takeWhile_ne (c : Char) (l : List Char) :
    (l.takeWhile fun d => d ≠ c).contains c = false := by
  cases hc : (l.takeWhile fun d => d ≠ c).contains c
  · rfl
  · exfalso
    have hmem : c ∈ l.takeWhile fun d => d ≠ c := by simpa using hc
    have hp := List.mem_takeWhile_imp hmem
    simp at hp

/-- C10: `normalizeUrl` never removes a fragment — the normalized record
carries the fragment unchanged, and (when a fragment is present) the
normalized `href`, which is the key the crawler inserts into the visited set
(`normalizeUrlS = href ∘ normalizeRec`), still ends in `#` plus that fragment.
Fragment stripping happens in link extraction (`resolveAndClean`), whose
output never contains `#`. -/
theorem normalizeUrl_preserves_fragment :
    (∀ u : URLRec, (normalizeRec u).hash = u.hash) ∧
    (∀ u : URLRec, u.hash ≠ "" →
      href (normalizeRec u) = hrefNoHash (normalizeRec u) ++ "#" ++ u.hash) ∧
    (∀ (lib : String → String → Option String) (url baseUrl s : String),
      resolveAndClean lib url baseUrl = some s → containsChar s '#' = false) := by
  refine ⟨fun u => rfl, fun u h => ?_, fun lib url baseUrl s hs => ?_⟩
  · rw [href]
    have hh : (normalizeRec u).hash = u.hash := rfl
    rw [hh, if_neg h]
    exact (String.append_assoc _ _ _).symm
  · unfold resolveAndClean at hs
    split_ifs at hs
    simp only [Option.some.injEq] at hs
    subst hs
    exact contains_takeWhile_ne '#' _

/-- Witness for C10 at `https://example.com/x#frag`. -/
theorem normalizeUrl_preserves_fragment_witness :
    (normalizeRec ⟨"https:", "example.com", none, "/x", [], "frag"⟩).hash = "frag" ∧
    href (normalizeRec ⟨"https:", "example.com", none, "/x", [], "frag"⟩) =
      hrefNoHash (normalizeRec ⟨"https:", "example.com", none, "/x", [], "frag"⟩) ++
        "#" ++ "frag" ∧
    containsChar "https://example.com/x" '#' = false :=
  ⟨normalizeUrl_preserves_fragment.1 _,
   normalizeUrl_preserves_fragment.2.1
     ⟨"https:", "example.com", none, "/x", [], "frag"⟩ (by decide),
   normalizeUrl_preserves_fragment.2.2 (fun u _ => some u)
     "https://example.com/x#frag" "https://example.com/" _ (by decide)⟩

/-! ## Resource Saver (`src/resource-saver.js`) -/

/-- A captured network response as the saver receives it (`{contentType, size,
body}`); the body bytes themselves are never inspected by any claim and are
not modelled. -/
structure ResourceData where
  contentType : String
  size : Nat
  deriving DecidableEq, Repr

/-- The mutable state of a `ResourceSaver`: the set of paths that exist on
disk (insertion order; a second write to the same path overwrites, leaving the
set unchanged) and the `savedFiles` map (`url → relative path`). -/
structure SaverSt where
  files : List String
  savedFiles : List (String × String)
  deriving DecidableEq, Repr

/-- JS `Map.set`: replace in place or append. -/
def mapSet (m : List (String × String)) (k v : String) : List (String × String) :=
  if m.any fun p => p.1 == k then m.map fun p => if p.1 == k then (k, v) else p
  else m ++ [(k, v)]

/-- `fs.writeFile`: the path now exists; writing an existing path overwrites
its contents and creates no new file. -/
def fsWrite (files : List String) (p : String) : List String :=
  if files.contains p then files else files ++ [p]

/-- `isKnownExtension` of `src/resource-saver.js` lines 175-210. -/
def isKnownExtension (ext : String) : Bool :=
  ["html", "htm", "css", "js", "mjs", "json", "xml",
   "png", "jpg", "jpeg", "gif", "webp", "svg", "ico", "bmp",
   "woff", "woff2", "ttf", "eot", "otf",
   "mp3", "mp4", "webm", "ogg", "wav", "avi",
   "pdf", "zip", "tar", "gz"].contains (toLowerStr ext)

/-- `ResourceSaver._fixExtension` (`src/resource-saver.js` lines 138-169), with
the `mime-types` database (`mime.extension`) passed in as `mimeExt`. -/
def fixExtension (mimeExt : String → Option String) (filePath contentType : String) :
    String :=
  if contentType == "" then filePath
  else
    match mimeExt (trimStr (takeUntilChar contentType ';')) with
    | none => filePath
    | some expectedExt =>
      let currentExt := toLowerStr ⟨(extname filePath).data.drop 1⟩
      let isEquivalent := [["jpg", "jpeg"], ["html", "htm"], ["js", "mjs", "cjs"]].any
        fun group => group.contains currentExt && group.contains expectedExt
      if isEquivalent || currentExt == expectedExt then filePath
      else if currentExt == "" || !isKnownExtension currentExt then
        filePath ++ "." ++ expectedExt
      else filePath

/-- The saver's constructor options (`{output, structure}`). -/
structure SaverOptions where
  output : String
  structureOpt : String
  deriving DecidableEq, Repr

/-- `ResourceSaver.saveResource` (`src/resource-saver.js` lines 54-75):
compute the sanitized relative path, fix extensions, write, record
`url → relativePath`.  `writeOk` models whether the filesystem write throws;
`none` = the write threw before `savedFiles` was updated. -/
def saveResource (opts : SaverOptions) (mimeExt : String → Option String)
    (writeOk : String → Bool) (parse : String → Option URLRec)
    (st : SaverSt) (url : String) (resource : ResourceData) :
    Option (SaverSt × String) :=
  let relativePath := sanitizePath (urlToPath (parse url) opts.structureOpt)
  let localPath := fixExtension mimeExt (joinPath opts.output relativePath) resource.contentType
  let relativePath2 := fixExtension mimeExt relativePath resource.contentType
  if writeOk localPath then
    some ({ files := fsWrite st.files localPath,
            savedFiles := mapSet st.savedFiles url relativePath2 }, localPath)
  else none

/-- The entry the crawler receives for each saved resource. -/
structure SavedItem where
  url : String
  localPath : String
  size : Nat
  deriving DecidableEq, Repr

/-- `ResourceSaver.saveResources` (`src/resource-saver.js` lines 80-93): save
each resource in turn; a throwing save is skipped (`catch` comment: "Continue
saving other resources") and the loop goes on. -/
def saveResources (opts : SaverOptions) (mimeExt : String → Option String)
    (writeOk : String → Bool) (parse : String → Option URLRec)
    (st : SaverSt) (resources : List (String × ResourceData)) :
    SaverSt × List SavedItem :=
  resources.foldl
    (fun acc r =>
      match saveResource opts mimeExt writeOk parse acc.1 r.1 r.2 with
      | some pr => (pr.1, acc.2 ++ [⟨r.1, pr.2, r.2.size⟩])
      | none => acc)
    (st, [])

/-- `ResourceSaver.saveHtml` (`src/resource-saver.js` lines 33-49): like
`saveResource` but with no extension fixing; stores the sanitized relative
path in `savedFiles`. -/
def saveHtml (opts : SaverOptions) (writeOk : String → Bool)
    (parse : String → Option URLRec) (st : SaverSt) (url html : String) :
    Option (SaverSt × String) :=
  let relativePath := sanitizePath (urlToPath (parse url) opts.structureOpt)
  let localPath := joinPath opts.output relativePath
  if writeOk localPath then
    some ({ files := fsWrite st.files localPath,
            savedFiles := mapSet st.savedFiles url relativePath }, localPath)
  else none

/-- The WHATWG parse of the two colliding URLs used against C2: `*` and `:`
are legal, unescaped pathname characters, so `new URL` keeps them verbatim. -/
def collideParse : String → Option URLRec := fun s =>
  if s = "https://example.com/a*b.css" then
    some ⟨"https:", "example.com", none, "/a*b.css", [], ""⟩
  else if s = "https://example.com/a:b.css" then
    some ⟨"https:", "example.com", none, "/a:b.css", [], ""⟩
  else none

/-- Saving the two colliding URLs through `saveResources` (all writes
succeed, empty content types). -/
def collideRun : SaverSt × List SavedItem :=
  saveResources ⟨"out", "original"⟩ (fun _ => none) (fun _ => true) collideParse ⟨[], []⟩
    [("https://example.com/a*b.css", ⟨"", 3⟩), ("https://example.com/a:b.css", ⟨"", 4⟩)]

/-- C2 fails on the code: the two distinct URLs `https://example.com/a*b.css`
and `https://example.com/a:b.css` sanitize to the same relative path
`example.com/a_b.css`; `saveResource` never consults the collision helper
`getUniqueFilename` (`src/utils/path.js` lines 60-76, which no caller uses),
so the second write lands on the same path — one file on disk instead of two,
and both URLs map to the same `relativeLocalPath`. -/
theorem saveResource_collision_overwrites :
    "https://example.com/a*b.css" ≠ "https://example.com/a:b.css" ∧
    sanitizePath (urlToPath (collideParse "https://example.com/a*b.css") "original") =
      sanitizePath (urlToPath (collideParse "https://example.com/a:b.css") "original") ∧
    collideRun.2.length = 2 ∧
    collideRun.1.files = ["out/example.com/a_b.css"] ∧
    collideRun.1.savedFiles =
      [("https://example.com/a*b.css", "example.com/a_b.css"),
       ("https://example.com/a:b.css", "example.com/a_b.css")] := by
  refine ⟨by decide, by decide, by decide, by decide, by decide⟩

/-! ## Manifest (`src/manifest.js`) and Crawler (`src/link-extractor.js`)

The crawler is embedded with its sequential capture semantics: `queue.add`
runs the queued `_capturePage` in place (the `p-queue` worker executes it; the
interleaving of concurrent workers is outside this model), and
`remainingDepth` is the recursion fuel exactly as in the source.  The
collaborating components the crawler calls — the URL parser, the mime
database, the filesystem, the configured `Filter`, the robots handler and the
browser-driven `PageCapture` — enter as the fields of `CrawlCtx`. -/

/-- A `pages` entry of the manifest (`addPageToManifest`); the `captured`
timestamp and the constant `status` are omitted (no claim mentions them). -/
structure PageRec where
  url : String
  localPath : String
  size : Nat
  title : String
  deriving DecidableEq, Repr

/-- An `assets` entry of the manifest (`addAssetToManifest`); `mimeType` is
`none` when the saved URL is missing from the capture's resource map
(`result.resources.get(url)?.contentType`). -/
structure AssetRec where
  url : String
  localPath : String
  mimeType : Option String
  size : Nat
  deriving DecidableEq, Repr

/-- The manifest fields the engine mutates (`src/manifest.js`); the
timestamps, version and options snapshot are constants for a run. -/
structure Manifest where
  pages : List PageRec
  assets : List AssetRec
  pagesCapt : Nat
  assetsCapt : Nat
  totalSize : Nat
  errors : Nat
  deriving DecidableEq, Repr

/-- `createManifest` (`src/manifest.js` lines 73-99): empty lists, zero
counters. -/
def createManifest : Manifest := ⟨[], [], 0, 0, 0, 0⟩

/-- `addPageToManifest` (`src/manifest.js` lines 104-117). -/
def addPageToManifest (m : Manifest) (p : PageRec) : Manifest :=
  { m with pages := m.pages ++ [p], pagesCapt := m.pagesCapt + 1,
           totalSize := m.totalSize + p.size }

/-- `addAssetToManifest` (`src/manifest.js` lines 122-133): an unconditional
push — there is no lookup of an existing entry for the same URL. -/
def addAssetToManifest (m : Manifest) (a : AssetRec) : Manifest :=
  { m with assets := m.assets ++ [a], assetsCapt := m.assetsCapt + 1,
           totalSize := m.totalSize + a.size }

/-- `addErrorToManifest` (`src/manifest.js` lines 138-141). -/
def addErrorToManifest (m : Manifest) : Manifest :=
  { m with errors := m.errors + 1 }

/-- What `PageCapture.capture` hands back to the crawler: the settled HTML,
the title, the response-sniffer's resource map (URL → resource, already
status/mime/exclude-list filtered by the sniffer) and the extracted page
links (`result.links.pages`). -/
structure CaptureResult where
  html : String
  title : String
  resources : List (String × ResourceData)
  pageLinks : List String
  deriving DecidableEq, Repr

/-- The crawler's collaborators and run options.  `site` models
`PageCapture.capture` for this run's web content (`none` = the capture threw,
e.g. a navigation timeout); `shouldFollowF` and `robotsAllowedF` are the
configured `filter.shouldFollow` and `robots.isAllowed`; `timeUp` is the value
of `options.maxTime && Date.now() - startTime >= options.maxTime`. -/
structure CrawlCtx where
  parse : String → Option URLRec
  mimeExt : String → Option String
  writeOk : String → Bool
  shouldFollowF : String → Bool
  robotsAllowedF : String → Bool
  site : String → Option CaptureResult
  maxPages : Option Nat
  timeUp : Bool
  output : String
  structureOpt : String

/-- The crawler-owned mutable state: the visited set, the manifest and the
saver (whose `savedFiles` is the URL map). -/
structure CrawlState where
  visited : List String
  manifest : Manifest
  saver : SaverSt
  deriving DecidableEq, Repr

/-- `ResourceSaver.getRelativePath`: Node `path.relative(outputDir, p)` for a
path written under the output directory. -/
def relativeToOutput (output localPath : String) : String :=
  if startsWithStr localPath (output ++ "/") then
    ⟨localPath.data.drop (output ++ "/").data.length⟩
  else localPath

/-- The local path `saveHtml` will write a page to. -/
def htmlLocalPath (ctx : CrawlCtx) (url : String) : String :=
  joinPath ctx.output (sanitizePath (urlToPath (ctx.parse url) ctx.structureOpt))

/-- `Crawler._capturePage` (`src/link-extractor.js` lines 452-570): capture,
save the resources, record each saved resource as a manifest asset, rewrite
and save the HTML, record the page, then (when `remainingDepth > 0`, which is
when `recurse` is `some`) feed every page link back into `_crawl`.  A capture
or HTML-write failure lands in the `catch` that calls `addErrorToManifest`.
Rewriting (`rewriteLinks`, `_rewriteCssFiles`) changes only file contents,
which the model does not track. -/
def capturePage (ctx : CrawlCtx) (recurse : Option (String → CrawlState → CrawlState))
    (url : String) (st : CrawlState) : CrawlState :=
  match ctx.site url with
  | none => { st with manifest := addErrorToManifest st.manifest }
  | some result =>
    let sres := saveResources ⟨ctx.output, ctx.structureOpt⟩ ctx.mimeExt ctx.writeOk
      ctx.parse st.saver result.resources
    let manifest2 := sres.2.foldl
      (fun m item => addAssetToManifest m
        ⟨item.url, relativeToOutput ctx.output item.localPath,
         (result.resources.lookup item.url).map (fun r => r.contentType), item.size⟩)
      st.manifest
    match saveHtml ⟨ctx.output, ctx.structureOpt⟩ ctx.writeOk ctx.parse sres.1
        url result.html with
    | none => { st with saver := sres.1, manifest := addErrorToManifest manifest2 }
    | some pr =>
      let st2 : CrawlState :=
        { visited := st.visited,
          manifest := addPageToManifest manifest2
            ⟨url, relativeToOutput ctx.output pr.2, result.html.utf8ByteSize, result.title⟩,
          saver := pr.1 }
      match recurse with
      | none => st2
      | some f =>
        result.pageLinks.foldl
          (fun s link => if isLikelyPage ctx.parse link then f link s else s) st2

/-- `Crawler._crawl` (`src/link-extractor.js` lines 394-447): normalize, the
visited / maxPages / maxTime / filter / robots gates, then mark visited and
capture. -/
def crawlStep (ctx : CrawlCtx) (recurse : Option (String → CrawlState → CrawlState))
    (url : String) (st : CrawlState) : CrawlState :=
  let url2 := normalizeUrlS ctx.parse url
  if st.visited.contains url2 then st
  else if (match ctx.maxPages with
    | some m => decide (st.visited.length ≥ m) | none => false) then st
  else if ctx.timeUp then st
  else if !ctx.shouldFollowF url2 then st
  else if !ctx.robotsAllowedF url2 then st
  else capturePage ctx recurse url2 { st with visited := st.visited ++ [url2] }

/-- `_crawl` with `remainingDepth` as fuel: at depth `d + 1` the capture feeds
page links back into `_crawl` at depth `d`; at depth `0` it does not. -/
def crawlGo (ctx : CrawlCtx) : Nat → String → CrawlState → CrawlState
  | 0, url, st => crawlStep ctx none url st
  | d + 1, url, st => crawlStep ctx (some (crawlGo ctx d)) url st

/-- The state `Crawler.start` (`src/link-extractor.js` lines 286-330) crawls
from: the visited set starts empty — the constructor's `new Set()` is never
seeded from the loaded manifest — and the manifest is the loaded one when
`useCache` found it, else a fresh one. -/
def startState (loaded : Option Manifest) : CrawlState :=
  { visited := [], manifest := loaded.getD createManifest, saver := ⟨[], []⟩ }

/-- `Crawler.start`: crawl the normalized root at the configured depth from
the start state. -/
def startRun (ctx : CrawlCtx) (depth : Nat) (rootUrl : String)
    (loaded : Option Manifest) : CrawlState :=
  crawlGo ctx depth (normalizeUrlS ctx.parse rootUrl) (startState loaded)

/-! ## Concrete run environments for the crawler claims -/

/-- WHATWG parses of the URLs of the demo site (checked by hand against
`new URL(...)`). -/
def demoParse : String → Option URLRec := fun s =>
  if s = "https://example.com/" then some ⟨"https:", "example.com", none, "/", [], ""⟩
  else if s = "https://example.com/p1" then
    some ⟨"https:", "example.com", none, "/p1", [], ""⟩
  else if s = "https://example.com/p2" then
    some ⟨"https:", "example.com", none, "/p2", [], ""⟩
  else if s = "https://example.com/a.css" then
    some ⟨"https:", "example.com", none, "/a.css", [], ""⟩
  else if s = "https://example.com/bad.css" then
    some ⟨"https:", "example.com", none, "/bad.css", [], ""⟩
  else if s = "https://example.com/ok.css" then
    some ⟨"https:", "example.com", none, "/ok.css", [], ""⟩
  else none

/-- A two-page site whose pages `p1` and `p2` both load the shared stylesheet
`a.css`; the root links to both. -/
def demoSiteShared : String → Option CaptureResult := fun s =>
  if s = "https://example.com/" then
    some ⟨"<html>", "root", [], ["https://example.com/p1", "https://example.com/p2"]⟩
  else if s = "https://example.com/p1" then
    some ⟨"<html>", "p1", [("https://example.com/a.css", ⟨"text/css", 3⟩)], []⟩
  else if s = "https://example.com/p2" then
    some ⟨"<html>", "p2", [("https://example.com/a.css", ⟨"text/css", 3⟩)], []⟩
  else none

/-- Crawl context for the shared-asset site: everything permitted, all writes
succeed, no limits configured.  The mime database maps `text/css` to `css`
(matching `mime-types`). -/
def demoCtxShared : CrawlCtx :=
  ⟨demoParse, (fun m => if m = "text/css" then some "css" else none), fun _ => true,
   fun _ => true, fun _ => true, demoSiteShared, none, false, "out", "original"⟩

/-- Depth-1 crawl of the shared-asset site from the root. -/
def sharedAssetRun : CrawlState :=
  startRun demoCtxShared 1 "https://example.com/" none

/-- C1 fails on the code for assets: in the depth-1 run over the two-page
site, the shared `a.css` is fetched during both page loads, saved twice (to
the same file) and pushed into the manifest's `assets` twice —
`addAssetToManifest` never deduplicates.  The pages list has no duplicates. -/
theorem manifest_duplicate_asset_counterexample :
    (sharedAssetRun.manifest.assets.map fun a => a.url) =
      ["https://example.com/a.css", "https://example.com/a.css"] ∧
    ¬ (sharedAssetRun.manifest.assets.map fun a => a.url).Nodup ∧
    (sharedAssetRun.manifest.pages.map fun p => p.url) =
      ["https://example.com/", "https://example.com/p1", "https://example.com/p2"] ∧
    sharedAssetRun.manifest.assetsCapt = 2 := by
  refine ⟨by decide, by decide, by decide, by decide⟩

/-- The manifest of a previous (interrupted) run whose root page was already
captured: what `readManifest` hands back to a `smippo continue` run. -/
def resumedManifest : Manifest :=
  ⟨[⟨"https://example.com/", "example.com/index.html", 6, "root"⟩], [], 1, 0, 6, 0⟩

/-- The `continue` run: `start` with the loaded manifest, depth 0. -/
def resumedRun : CrawlState :=
  startRun demoCtxShared 0 "https://example.com/" (some resumedManifest)

/-- C4 fails on the code: `start` loads the manifest but never inserts its
page URLs into the visited set (the constructor's `new Set()` stays empty), so
the resumed run re-captures the root page and appends a second `pages` entry
for the same URL. -/
theorem resume_recaptures_manifest_pages :
    (startState (some resumedManifest)).visited = [] ∧
    (resumedManifest.pages.map fun p => p.url) = ["https://example.com/"] ∧
    (resumedRun.manifest.pages.map fun p => p.url) =
      ["https://example.com/", "https://example.com/"] ∧
    resumedRun.manifest.pagesCapt = 2 := by
  refine ⟨rfl, by decide, by decide, by decide⟩

/-- A site whose root page loads two stylesheets; the filesystem refuses the
write of `bad.css` (`fs.writeFile` throws for that path only). -/
def failSite : String → Option CaptureResult := fun s =>
  if s = "https://example.com/" then
    some ⟨"<html>", "root",
      [("https://example.com/bad.css", ⟨"", 5⟩), ("https://example.com/ok.css", ⟨"", 4⟩)],
      []⟩
  else none

/-- Crawl context in which exactly the write of `out/example.com/bad.css`
fails. -/
def failCtx : CrawlCtx :=
  ⟨demoParse, fun _ => none, (fun p => p != "out/example.com/bad.css"),
   fun _ => true, fun _ => true, failSite, none, false, "out", "original"⟩

/-- Depth-0 crawl of the failing-write site. -/
def failRun : CrawlState :=
  startRun failCtx 0 "https://example.com/" none

/-- C8 fails on the code in its error-recording half: when the write of one
resource throws, the remaining resource and the page HTML are still saved and
the page is recorded — but the failure is swallowed by `saveResources`' empty
`catch` and the manifest's error counter stays 0 (nothing calls
`addErrorToManifest`). -/
theorem resource_failure_not_recorded :
    failRun.manifest.errors = 0 ∧
    (failRun.manifest.assets.map fun a => a.url) = ["https://example.com/ok.css"] ∧
    (failRun.manifest.pages.map fun p => p.url) = ["https://example.com/"] ∧
    failRun.saver.files = ["out/example.com/ok.css", "out/example.com/index.html"] := by
  refine ⟨by decide, by decide, by decide, by decide⟩

/-! ## General theorems about the saver and the crawler -/

/-- The local path `saveResource` computes for a URL/resource pair (it does
not depend on the saver state, so whether a write succeeds is a property of
the pair alone). -/
def resourceTargetPath (opts : SaverOptions) (mimeExt : String → Option String)
    (parse : String → Option URLRec) (url : String) (resource : ResourceData) : String :=
  fixExtension mimeExt (joinPath opts.output (sanitizePath (urlToPath (parse url) opts.structureOpt)))
    resource.contentType

theorem saveResources_go (opts : SaverOptions) (mimeExt : String → Option String)
    (writeOk : String → Bool) (parse : String → Option URLRec)
    (resources : List (String × ResourceData)) :
    ∀ (st : SaverSt) (acc : List SavedItem),
      (resources.foldl
        (fun acc r =>
          match saveResource opts mimeExt writeOk parse acc.1 r.1 r.2 with
          | some pr => (pr.1, acc.2 ++ [⟨r.1, pr.2, r.2.size⟩])
          | none => acc)
        (st, acc)).2 =
      acc ++ resources.filterMap (fun r =>
        if writeOk (resourceTargetPath opts mimeExt parse r.1 r.2) then
          some ⟨r.1, resourceTargetPath opts mimeExt parse r.1 r.2, r.2.size⟩
        else none) := by
  induction resources with
  | nil => intro st acc; simp
  | cons r rest ih =>
    intro st acc
    rw [List.foldl_cons, List.filterMap_cons]
    by_cases hw : writeOk (resourceTargetPath opts mimeExt parse r.1 r.2) = true
    · have hsr : saveResource opts mimeExt writeOk parse st r.1 r.2 =
          some ({ files := fsWrite st.files (resourceTargetPath opts mimeExt parse r.1 r.2),
                  savedFiles := mapSet st.savedFiles r.1
                    (fixExtension mimeExt
                      (sanitizePath (urlToPath (parse r.1) opts.structureOpt))
                      r.2.contentType) },
                resourceTargetPath opts mimeExt parse r.1 r.2) := by
        simp only [saveResource]
        rw [if_pos (by exact hw)]
        rfl
      simp [hsr, hw, ih]
    · have hwf : writeOk (resourceTargetPath opts mimeExt parse r.1 r.2) = false := by
        cases hb : writeOk (resourceTargetPath opts mimeExt parse r.1 r.2)
        · rfl
        · exact absurd hb hw
      have hsr : saveResource opts mimeExt writeOk parse st r.1 r.2 = none := by
        simp only [saveResource]
        rw [if_neg (by
          have h2 := hwf
          unfold resourceTargetPath at h2
          rw [h2]
          exact Bool.false_ne_true)]
      simp [hsr, hwf, ih]

/-- The list of saved items `saveResources` returns is exactly the input
resources whose target-path write succeeds, in order — a failed write is
skipped and saving continues. -/
theorem saveResources_characterization (opts : SaverOptions)
    (mimeExt : String → Option String) (writeOk : String → Bool)
    (parse : String → Option URLRec) (st : SaverSt)
    (resources : List (String × ResourceData)) :
    (saveResources opts mimeExt writeOk parse st resources).2 =
      resources.filterMap (fun r =>
        if writeOk (resourceTargetPath opts mimeExt parse r.1 r.2) then
          some ⟨r.1, resourceTargetPath opts mimeExt parse r.1 r.2, r.2.size⟩
        else none) := by
  unfold saveResources
  rw [saveResources_go]
  rfl

theorem foldl_manifest_pages {f : Manifest → SavedItem → Manifest}
    (hf : ∀ m i, (f m i).pages = m.pages) :
    ∀ (l : List SavedItem) (m : Manifest), (l.foldl f m).pages = m.pages := by
  intro l
  induction l with
  | nil => intro m; rfl
  | cons a l ih => intro m; rw [List.foldl_cons, ih, hf]

theorem foldl_manifest_errors {f : Manifest → SavedItem → Manifest}
    (hf : ∀ m i, (f m i).errors = m.errors) :
    ∀ (l : List SavedItem) (m : Manifest), (l.foldl f m).errors = m.errors := by
  intro l
  induction l with
  | nil => intro m; rfl
  | cons a l ih => intro m; rw [List.foldl_cons, ih, hf]

theorem foldl_manifest_assets {f : Manifest → SavedItem → Manifest}
    {g : SavedItem → AssetRec} (hf : ∀ m i, (f m i).assets = m.assets ++ [g i]) :
    ∀ (l : List SavedItem) (m : Manifest), (l.foldl f m).assets = m.assets ++ l.map g := by
  intro l
  induction l with
  | nil => intro m; simp
  | cons a l ih => intro m; rw [List.foldl_cons, ih, hf, List.map_cons]; simp

theorem foldl_preserves_inv {σ α : Type} (P : σ → Prop) (f : σ → α → σ)
    (hf : ∀ s a, P s → P (f s a)) : ∀ (l : List α) (s : σ), P s → P (l.foldl f s) := by
  intro l
  induction l with
  | nil => intro s h; exact h
  | cons a l ih => intro s h; exact ih _ (hf s a h)

/-- What a successful capture (page fetch succeeded, HTML write succeeded)
does to the manifest: the saved resources are appended to `assets` one entry
each, exactly one `pages` entry is appended, and the error counter is
unchanged. -/
theorem capturePage_success_effect (ctx : CrawlCtx) (url : String) (st : CrawlState)
    (result : CaptureResult) (hsite : ctx.site url = some result)
    (hw : ctx.writeOk (htmlLocalPath ctx url) = true) :
    (capturePage ctx none url st).manifest.errors = st.manifest.errors ∧
    (capturePage ctx none url st).manifest.pages = st.manifest.pages ++
      [⟨url, relativeToOutput ctx.output (htmlLocalPath ctx url),
        result.html.utf8ByteSize, result.title⟩] ∧
    (capturePage ctx none url st).manifest.assets = st.manifest.assets ++
      (saveResources ⟨ctx.output, ctx.structureOpt⟩ ctx.mimeExt ctx.writeOk ctx.parse
          st.saver result.resources).2.map
        (fun item => ⟨item.url, relativeToOutput ctx.output item.localPath,
          (result.resources.lookup item.url).map (fun r => r.contentType), item.size⟩) := by
  unfold capturePage
  rw [hsite]
  have hhtml : saveHtml ⟨ctx.output, ctx.structureOpt⟩ ctx.writeOk ctx.parse
      (saveResources ⟨ctx.output, ctx.structureOpt⟩ ctx.mimeExt ctx.writeOk ctx.parse
        st.saver result.resources).1 url result.html =
      some ({ files := fsWrite (saveResources ⟨ctx.output, ctx.structureOpt⟩ ctx.mimeExt
                ctx.writeOk ctx.parse st.saver result.resources).1.files
                (htmlLocalPath ctx url),
              savedFiles := mapSet (saveResources ⟨ctx.output, ctx.structureOpt⟩ ctx.mimeExt
                ctx.writeOk ctx.parse st.saver result.resources).1.savedFiles url
                (sanitizePath (urlToPath (ctx.parse url) ctx.structureOpt)) },
            htmlLocalPath ctx url) := by
    simp only [saveHtml]
    rw [if_pos (by
      have h2 := hw
      unfold htmlLocalPath at h2
      rw [h2])]
    rfl
  dsimp only
  rw [hhtml]
  simp only [addPageToManifest]
  refine ⟨?_, ?_, ?_⟩
  · exact foldl_manifest_errors
      (f := fun m item => addAssetToManifest m
        ⟨item.url, relativeToOutput ctx.output item.localPath,
          (result.resources.lookup item.url).map (fun r => r.contentType), item.size⟩)
      (fun m i => rfl) _ _
  · rw [foldl_manifest_pages
      (f := fun m item => addAssetToManifest m
        ⟨item.url, relativeToOutput ctx.output item.localPath,
          (result.resources.lookup item.url).map (fun r : ResourceData => r.contentType),
          item.size⟩)
      (fun m i => rfl)]
  · rw [foldl_manifest_assets
      (f := fun m item => addAssetToManifest m
        ⟨item.url, relativeToOutput ctx.output item.localPath,
          (result.resources.lookup item.url).map (fun r : ResourceData => r.contentType),
          item.size⟩)
      (g := fun item =>
        ⟨item.url, relativeToOutput ctx.output item.localPath,
          (result.resources.lookup item.url).map (fun r : ResourceData => r.contentType),
          item.size⟩)
      (fun m i => rfl)]

/-- The URLs of the manifest's pages list. -/
def pageUrlsOf (st : CrawlState) : List String :=
  st.manifest.pages.map fun p => p.url

/-- The at-most-once invariant for pages: no URL appears twice in the pages
list, and every page URL is in the visited set. -/
def PagesInv (st : CrawlState) : Prop :=
  (pageUrlsOf st).Nodup ∧ ∀ u ∈ pageUrlsOf st, u ∈ st.visited

theorem nodup_append_singleton {l : List String} {a : String} (h : l.Nodup)
    (ha : a ∉ l) : (l ++ [a]).Nodup :=
  (List.perm_append_singleton a l).symm.nodup (List.nodup_cons.mpr ⟨ha, h⟩)

/-- `capturePage` with link recursion is the non-recursive capture followed by
the fold of the recursive calls over the extracted page links (and just the
non-recursive capture when the page fetch or HTML write failed). -/
theorem capturePage_some_cases (ctx : CrawlCtx) (f : String → CrawlState → CrawlState)
    (url : String) (st : CrawlState) :
    capturePage ctx (some f) url st = capturePage ctx none url st ∨
    ∃ result, ctx.site url = some result ∧
      capturePage ctx (some f) url st =
        result.pageLinks.foldl
          (fun s link => if isLikelyPage ctx.parse link then f link s else s)
          (capturePage ctx none url st) := by
  cases hsite : ctx.site url with
  | none =>
    left
    unfold capturePage
    rw [hsite]
  | some result =>
    cases hhtml : saveHtml ⟨ctx.output, ctx.structureOpt⟩ ctx.writeOk ctx.parse
        (saveResources ⟨ctx.output, ctx.structureOpt⟩ ctx.mimeExt ctx.writeOk ctx.parse
          st.saver result.resources).1 url result.html with
    | none =>
      left
      unfold capturePage
      rw [hsite]
      dsimp only
      rw [hhtml]
    | some pr =>
      right
      refine ⟨result, rfl, ?_⟩
      unfold capturePage
      rw [hsite]
      dsimp only
      rw [hhtml]

theorem pagesInv_addPage (visited : List String) (m : Manifest) (saver : SaverSt)
    (p : PageRec) (hnd : (m.pages.map fun q => q.url).Nodup)
    (hsub : ∀ u ∈ m.pages.map fun q => q.url, u ∈ visited)
    (hp : p.url ∉ m.pages.map fun q => q.url) (hv : p.url ∈ visited) :
    PagesInv ⟨visited, addPageToManifest m p, saver⟩ := by
  constructor
  · show ((m.pages ++ [p]).map fun q => q.url).Nodup
    rw [List.map_append]
    exact nodup_append_singleton hnd hp
  · intro u hu
    have hu2 : u ∈ (m.pages.map fun q => q.url) ++ [p.url] := by
      simpa [pageUrlsOf, addPageToManifest] using hu
    rcases List.mem_append.mp hu2 with h | h
    · exact hsub u h
    · rw [List.mem_singleton.mp h]
      exact hv

/-- The non-recursive capture preserves the pages invariant when the captured
URL is already visited and not yet recorded as a page. -/
theorem capturePage_none_pagesInv (ctx : CrawlCtx) (url : String) (st : CrawlState)
    (hin : url ∈ st.visited) (hnotp : url ∉ pageUrlsOf st) (hinv : PagesInv st) :
    PagesInv (capturePage ctx none url st) := by
  unfold capturePage
  cases hsite : ctx.site url with
  | none => exact hinv
  | some result =>
    dsimp only
    cases hhtml : saveHtml ⟨ctx.output, ctx.structureOpt⟩ ctx.writeOk ctx.parse
        (saveResources ⟨ctx.output, ctx.structureOpt⟩ ctx.mimeExt ctx.writeOk ctx.parse
          st.saver result.resources).1 url result.html with
    | none =>
      dsimp only
      have hp : (List.foldl
          (fun m item => addAssetToManifest m
            ⟨item.url, relativeToOutput ctx.output item.localPath,
              (result.resources.lookup item.url).map (fun r : ResourceData => r.contentType),
              item.size⟩)
          st.manifest
          (saveResources ⟨ctx.output, ctx.structureOpt⟩ ctx.mimeExt ctx.writeOk ctx.parse
            st.saver result.resources).2).pages = st.manifest.pages :=
        foldl_manifest_pages
          (f := fun m item => addAssetToManifest m
            ⟨item.url, relativeToOutput ctx.output item.localPath,
              (result.resources.lookup item.url).map (fun r : ResourceData => r.contentType),
              item.size⟩)
          (fun m i => rfl) _ _
      constructor
      · show ((addErrorToManifest _).pages.map _).Nodup
        rw [show (addErrorToManifest _).pages = _ from hp]
        exact hinv.1
      · intro u hu
        rw [show pageUrlsOf _ = st.manifest.pages.map (fun p => p.url) by
          show ((addErrorToManifest _).pages.map _) = _
          rw [show (addErrorToManifest _).pages = _ from hp]] at hu
        exact hinv.2 u hu
    | some pr =>
      dsimp only
      have hp : (List.foldl
          (fun m item => addAssetToManifest m
            ⟨item.url, relativeToOutput ctx.output item.localPath,
              (result.resources.lookup item.url).map (fun r : ResourceData => r.contentType),
              item.size⟩)
          st.manifest
          (saveResources ⟨ctx.output, ctx.structureOpt⟩ ctx.mimeExt ctx.writeOk ctx.parse
            st.saver result.resources).2).pages = st.manifest.pages :=
        foldl_manifest_pages
          (f := fun m item => addAssetToManifest m
            ⟨item.url, relativeToOutput ctx.output item.localPath,
              (result.resources.lookup item.url).map (fun r : ResourceData => r.contentType),
              item.size⟩)
          (fun m i => rfl) _ _
      exact pagesInv_addPage st.visited _ pr.1
        ⟨url, relativeToOutput ctx.output pr.2, result.html.utf8ByteSize, result.title⟩
        (by rw [hp]; exact hinv.1)
        (by rw [hp]; exact hinv.2)
        (by rw [hp]; exact hnotp)
        hin

/-- `capturePage` preserves the pages invariant when every recursive call
does. -/
theorem capturePage_pagesInv (ctx : CrawlCtx)
    (recurse : Option (String → CrawlState → CrawlState)) (url : String)
    (st : CrawlState)
    (hrec : ∀ f, recurse = some f → ∀ u s, PagesInv s → PagesInv (f u s))
    (hin : url ∈ st.visited) (hnotp : url ∉ pageUrlsOf st) (hinv : PagesInv st) :
    PagesInv (capturePage ctx recurse url st) := by
  cases recurse with
  | none => exact capturePage_none_pagesInv ctx url st hin hnotp hinv
  | some f =>
    rcases capturePage_some_cases ctx f url st with h | ⟨result, _, h⟩
    · rw [h]
      exact capturePage_none_pagesInv ctx url st hin hnotp hinv
    · rw [h]
      exact foldl_preserves_inv PagesInv _
        (fun s link hs => by
          by_cases hl : isLikelyPage ctx.parse link = true
          · rw [if_pos hl]; exact hrec f rfl link s hs
          · rw [if_neg hl]; exact hs)
        _ _ (capturePage_none_pagesInv ctx url st hin hnotp hinv)

/-- `_crawl` preserves the pages invariant when every recursive call does. -/
theorem crawlStep_pagesInv (ctx : CrawlCtx)
    (recurse : Option (String → CrawlState → CrawlState)) (url : String)
    (st : CrawlState)
    (hrec : ∀ f, recurse = some f → ∀ u s, PagesInv s → PagesInv (f u s))
    (hinv : PagesInv st) : PagesInv (crawlStep ctx recurse url st) := by
  unfold crawlStep
  dsimp only
  by_cases h1 : st.visited.contains (normalizeUrlS ctx.parse url) = true
  · rw [if_pos h1]; exact hinv
  · rw [if_neg h1]
    by_cases h2 : (match ctx.maxPages with
      | some m => decide (st.visited.length ≥ m) | none => false) = true
    · rw [if_pos h2]; exact hinv
    · rw [if_neg h2]
      by_cases h3 : ctx.timeUp = true
      · rw [if_pos h3]; exact hinv
      · rw [if_neg h3]
        by_cases h4 : (!ctx.shouldFollowF (normalizeUrlS ctx.parse url)) = true
        · rw [if_pos h4]; exact hinv
        · rw [if_neg h4]
          by_cases h5 : (!ctx.robotsAllowedF (normalizeUrlS ctx.parse url)) = true
          · rw [if_pos h5]; exact hinv
          · rw [if_neg h5]
            have hnv : normalizeUrlS ctx.parse url ∉ st.visited := by
              intro hmem
              exact h1 (by simpa using hmem)
            exact capturePage_pagesInv ctx recurse (normalizeUrlS ctx.parse url)
              { st with visited := st.visited ++ [normalizeUrlS ctx.parse url] }
              hrec
              (List.mem_append_right _ (List.mem_singleton.mpr rfl))
              (fun hmem => hnv (hinv.2 _ hmem))
              ⟨hinv.1, fun u hu => List.mem_append_left _ (hinv.2 u hu)⟩

/-- `_crawl` at any depth preserves the pages invariant. -/
theorem crawlGo_pagesInv (ctx : CrawlCtx) :
    ∀ (d : Nat) (url : String) (st : CrawlState),
      PagesInv st → PagesInv (crawlGo ctx d url st) := by
  intro d
  induction d with
  | zero =>
    intro url st h
    exact crawlStep_pagesInv ctx none url st (fun f hf => Option.noConfusion hf) h
  | succ d ih =>
    intro url st h
    refine crawlStep_pagesInv ctx (some (crawlGo ctx d)) url st ?_ h
    intro f hf u s hs
    injection hf with hf2
    rw [← hf2]
    exact ih u s hs

/-- C1 (amended): in a run started with a fresh manifest, every normalized URL
appears at most once in the manifest's `pages` list (the visited-set gate in
`_crawl` fires before each capture).  Assets are different: each successful
capture appends one `assets` entry per resource it saved, with no
deduplication against earlier pages, so an asset fetched during several page
loads yields one entry per fetching page (see the counterexample). -/
theorem crawler_at_most_once :
    (∀ (ctx : CrawlCtx) (depth : Nat) (rootUrl : String),
      ((startRun ctx depth rootUrl none).manifest.pages.map fun p => p.url).Nodup) ∧
    (∀ (ctx : CrawlCtx) (url : String) (st : CrawlState) (result : CaptureResult),
      ctx.site url = some result → ctx.writeOk (htmlLocalPath ctx url) = true →
      (capturePage ctx none url st).manifest.assets = st.manifest.assets ++
        (saveResources ⟨ctx.output, ctx.structureOpt⟩ ctx.mimeExt ctx.writeOk ctx.parse
            st.saver result.resources).2.map
          (fun item => ⟨item.url, relativeToOutput ctx.output item.localPath,
            (result.resources.lookup item.url).map (fun r : ResourceData => r.contentType),
            item.size⟩)) := by
  constructor
  · intro ctx depth rootUrl
    exact (crawlGo_pagesInv ctx depth (normalizeUrlS ctx.parse rootUrl) (startState none)
      ⟨List.nodup_nil, fun u hu => absurd hu (List.not_mem_nil u)⟩).1
  · intro ctx url st result hsite hw
    exact (capturePage_success_effect ctx url st result hsite hw).2.2

/-- Witness for C1 on the shared-asset demo site. -/
theorem crawler_at_most_once_witness :
    ((startRun demoCtxShared 1 "https://example.com/" none).manifest.pages.map
      fun p => p.url).Nodup ∧
    (capturePage demoCtxShared none "https://example.com/p1" (startState none)).manifest.assets =
      (startState none).manifest.assets ++
        (saveResources ⟨demoCtxShared.output, demoCtxShared.structureOpt⟩
            demoCtxShared.mimeExt demoCtxShared.writeOk demoCtxShared.parse
            (startState none).saver
            [("https://example.com/a.css", ⟨"text/css", 3⟩)]).2.map
          (fun item => ⟨item.url, relativeToOutput demoCtxShared.output item.localPath,
            (([("https://example.com/a.css", (⟨"text/css", 3⟩ : ResourceData))]).lookup
              item.url).map (fun r : ResourceData => r.contentType), item.size⟩) :=
  ⟨crawler_at_most_once.1 demoCtxShared 1 "https://example.com/",
   crawler_at_most_once.2 demoCtxShared "https://example.com/p1" (startState none)
     ⟨"<html>", "p1", [("https://example.com/a.css", ⟨"text/css", 3⟩)], []⟩
     (by decide) (by decide)⟩

/-- C8 (amended): a failure while writing one resource does not abort the page
save — `saveResources` skips exactly the resources whose write throws and
saves all the others, and a page whose fetch and HTML write succeed is still
recorded in the manifest — but the per-resource failure is *not* recorded in
the manifest: nothing increments the error counter (the `catch` in
`saveResources` is empty; see the counterexample). -/
theorem resource_failure_isolation :
    (∀ (opts : SaverOptions) (mimeExt : String → Option String) (writeOk : String → Bool)
        (parse : String → Option URLRec) (st : SaverSt)
        (resources : List (String × ResourceData)),
      (saveResources opts mimeExt writeOk parse st resources).2 =
        resources.filterMap (fun r =>
          if writeOk (resourceTargetPath opts mimeExt parse r.1 r.2) then
            some ⟨r.1, resourceTargetPath opts mimeExt parse r.1 r.2, r.2.size⟩
          else none)) ∧
    (∀ (ctx : CrawlCtx) (url : String) (st : CrawlState) (result : CaptureResult),
      ctx.site url = some result → ctx.writeOk (htmlLocalPath ctx url) = true →
      (capturePage ctx none url st).manifest.errors = st.manifest.errors ∧
      (capturePage ctx none url st).manifest.pages = st.manifest.pages ++
        [⟨url, relativeToOutput ctx.output (htmlLocalPath ctx url),
          result.html.utf8ByteSize, result.title⟩]) := by
  constructor
  · exact saveResources_characterization
  · intro ctx url st result hsite hw
    exact ⟨(capturePage_success_effect ctx url st result hsite hw).1,
           (capturePage_success_effect ctx url st result hsite hw).2.1⟩

/-- Witness for C8 on the failing-write demo: one write fails, the other
resource is still saved, and a successful page capture leaves the error
counter untouched. -/
theorem resource_failure_isolation_witness :
    (saveResources ⟨"out", "original"⟩ failCtx.mimeExt failCtx.writeOk failCtx.parse
        ⟨[], []⟩
        [("https://example.com/bad.css", ⟨"", 5⟩), ("https://example.com/ok.css", ⟨"", 4⟩)]).2 =
      ([("https://example.com/bad.css", (⟨"", 5⟩ : ResourceData)),
        ("https://example.com/ok.css", ⟨"", 4⟩)]).filterMap (fun r =>
        if failCtx.writeOk (resourceTargetPath ⟨"out", "original"⟩ failCtx.mimeExt
            failCtx.parse r.1 r.2) then
          some ⟨r.1, resourceTargetPath ⟨"out", "original"⟩ failCtx.mimeExt failCtx.parse
            r.1 r.2, r.2.size⟩
        else none) ∧
    (capturePage failCtx none "https://example.com/" (startState none)).manifest.errors =
      (startState none).manifest.errors ∧
    (capturePage failCtx none "https://example.com/" (startState none)).manifest.pages =
      (startState none).manifest.pages ++
        [⟨"https://example.com/",
          relativeToOutput failCtx.output (htmlLocalPath failCtx "https://example.com/"),
          ("<html>" : String).utf8ByteSize, "root"⟩] :=
  ⟨resource_failure_isolation.1 ⟨"out", "original"⟩ failCtx.mimeExt failCtx.writeOk
     failCtx.parse ⟨[], []⟩
     [("https://example.com/bad.css", ⟨"", 5⟩), ("https://example.com/ok.css", ⟨"", 4⟩)],
   (resource_failure_isolation.2 failCtx "https://example.com/" (startState none)
     ⟨"<html>", "root",
      [("https://example.com/bad.css", ⟨"", 5⟩), ("https://example.com/ok.css", ⟨"", 4⟩)],
      []⟩ (by decide) (by decide)).1,
   (resource_failure_isolation.2 failCtx "https://example.com/" (startState none)
     ⟨"<html>", "root",
      [("https://example.com/bad.css", ⟨"", 5⟩), ("https://example.com/ok.css", ⟨"", 4⟩)],
      []⟩ (by decide) (by decide)).2⟩

end Smippo
